import Mathlib

/-
Shallow embedding of the Identity Sync & Credit Ledger core of the
AI-Image-Editor repository (a Next.js app backed by MongoDB via Mongoose).

Embedded source files:
  - src/lib/database/models/user.model.ts        (User schema, unique indexes)
  - src/lib/database/models/transaction.model.ts (Transaction schema, unique stripeId)
  - src/lib/actions/user.actions.ts              (createUser, getUserById, updateUser,
                                                  deleteUser, updateCredits)
  - src/lib/utils.ts                             (handleError: rethrows a wrapped error)
  - the Clerk webhook POST handler               (user.created / user.updated /
                                                  user.deleted branches)
  - src/lib/database/mongoose.ts                 (connectToDatabase memoization)

The MongoDB store is modelled as lists of documents; each server action is a
function from a store to a result paired with the post-state.  A thrown
JavaScript error is an `Except.error`; since MongoDB single-document writes are
atomic and a throw aborts the action, the paired store is unchanged on error.
-/

/-- Error values thrown by the embedded core.  Each constructor corresponds to
one throw site in the source: `dupKey` is the store-level E11000 duplicate-key
error of a unique index, `userNotFound` is `throw new Error("User not found")`
in deleteUser and getUserById, `updateFailed` is `"User update failed"` in
updateUser, `creditsUpdateFailed` is `"User credits update failed"` in
updateCredits, `typeError` is the TypeError from reading a property of
`undefined`, `missingUrl` is `"Missing MONGODB_URL"` in connectToDatabase,
`alreadyRecorded` is the duplicate payment-id rejection of the Transaction
schema's unique stripeId index, `connectFailed` stands for a rejection of the
promise mongoose.connect returns, and `wrapped e` is the fresh
`new Error("Error: " + message)` that handleError rethrows in place of `e`. -/
inductive JsError where
  | dupKey : JsError
  | userNotFound : JsError
  | updateFailed : JsError
  | creditsUpdateFailed : JsError
  | typeError : JsError
  | missingUrl : JsError
  | alreadyRecorded : JsError
  | connectFailed : JsError
  | wrapped : JsError → JsError
  deriving DecidableEq, Repr

/-- A User document (src/lib/database/models/user.model.ts).  `mongoId` stands
for the Mongo `_id`; clerkId, email and username carry unique indexes; planId
defaults to 1 and creditBalance to 10 on creation. -/
structure User where
  mongoId : Nat
  clerkId : String
  email : String
  username : String
  photo : String
  firstName : String
  lastName : String
  planId : Int
  creditBalance : Int
  deriving DecidableEq, Repr

/-- CreateUserParams (src/types/index.d.ts). -/
structure CreateUserParams where
  clerkId : String
  email : String
  username : String
  firstName : String
  lastName : String
  photo : String
  deriving DecidableEq, Repr

/-- UpdateUserParams (src/types/index.d.ts): the only fields the profile-update
path may set. -/
structure UpdateUserParams where
  firstName : String
  lastName : String
  username : String
  photo : String
  deriving DecidableEq, Repr

/-- A Transaction document (src/lib/database/models/transaction.model.ts).
stripeId carries a unique index; buyer references a User by its `_id`. -/
structure Txn where
  createdAt : Nat
  stripeId : String
  amount : Int
  plan : String
  credits : Int
  buyer : Nat
  deriving DecidableEq, Repr

/-- CreateTransactionParams (src/types/index.d.ts). -/
structure CreateTransactionParams where
  stripeId : String
  amount : Int
  credits : Int
  plan : String
  buyerId : Nat
  createdAt : Nat
  deriving DecidableEq, Repr

/-- The persistent store: the User and Transaction collections plus the
counter supplying fresh `_id` values for inserts. -/
structure Store where
  users : List User
  txns : List Txn
  nextId : Nat
  deriving DecidableEq, Repr

/-- Mongoose `findOneAndUpdate` write effect: update the first document
matching the filter, in place, leaving every other document untouched. -/
def updateFirst (p : α → Bool) (f : α → α) : List α → List α
  | [] => []
  | x :: xs => if p x then f x :: xs else x :: updateFirst p f xs

/-- Mongoose `findByIdAndDelete` write effect: remove the first document
matching the filter. -/
def removeFirst (p : α → Bool) : List α → List α
  | [] => []
  | x :: xs => if p x then xs else x :: removeFirst p xs

/-- The unique-index check performed by the store on `User.create`: the insert
is rejected when an existing document shares the clerkId, email or username
(user.model.ts declares `unique: true` on all three). -/
def userConflict (s : Store) (p : CreateUserParams) : Bool :=
  s.users.any fun u =>
    u.clerkId == p.clerkId || u.email == p.email || u.username == p.username

/-- handleError (src/lib/utils.ts): logs the error and rethrows a fresh
`new Error("Error: " + message)`; every server action's catch block calls it,
so the original error escapes in wrapped form. -/
def handleError (e : JsError) : JsError := .wrapped e

/-- The document `User.create` inserts: the given fields, a fresh `_id`, and
the schema defaults planId = 1 and creditBalance = 10. -/
def freshUser (s : Store) (p : CreateUserParams) : User :=
  ⟨s.nextId, p.clerkId, p.email, p.username, p.photo, p.firstName, p.lastName, 1, 10⟩

/-- createUser (src/lib/actions/user.actions.ts, lines 29-39): `User.create`
inside try/catch-handleError.  A unique-index conflict makes the insert throw,
which handleError rethrows wrapped; otherwise the new document is inserted
with schema defaults. -/
def createUser (s : Store) (p : CreateUserParams) : Except JsError User × Store :=
  if userConflict s p then
    (.error (handleError .dupKey), s)
  else
    (.ok (freshUser s p), ⟨s.users ++ [freshUser s p], s.txns, s.nextId + 1⟩)

/-- getUserById (user.actions.ts, lines 47-59): `User.findOne({clerkId})`,
throwing "User not found" (rethrown wrapped) when no document matches. -/
def getUserById (s : Store) (userId : String) : Except JsError User × Store :=
  match s.users.find? (fun u => u.clerkId == userId) with
  | none => (.error (handleError .userNotFound), s)
  | some u => (.ok u, s)

/-- The `$set` effect of `User.findOneAndUpdate({clerkId}, user)` where `user`
has type UpdateUserParams: exactly the four mutable profile fields are
assigned; every other field of the document is left as it was. -/
def applyProfileUpdate (p : UpdateUserParams) (u : User) : User :=
  { u with firstName := p.firstName, lastName := p.lastName,
           username := p.username, photo := p.photo }

/-- updateUser (user.actions.ts, lines 68-84): `findOneAndUpdate({clerkId},
user, {new:true})`; a null result throws "User update failed", rethrown
wrapped by handleError. -/
def updateUser (s : Store) (clerkId : String) (p : UpdateUserParams) :
    Except JsError User × Store :=
  match s.users.find? (fun u => u.clerkId == clerkId) with
  | none => (.error (handleError .updateFailed), s)
  | some u =>
    (.ok (applyProfileUpdate p u),
     ⟨updateFirst (fun v => v.clerkId == clerkId) (applyProfileUpdate p) s.users,
      s.txns, s.nextId⟩)

/-- deleteUser (user.actions.ts, lines 92-111): findOne by clerkId, throwing
"User not found" (rethrown wrapped) when absent; otherwise
`findByIdAndDelete(userToDelete._id)` removes the document and the deleted
document (or null) is returned. -/
def deleteUser (s : Store) (clerkId : String) : Except JsError (Option User) × Store :=
  match s.users.find? (fun u => u.clerkId == clerkId) with
  | none => (.error (handleError .userNotFound), s)
  | some u =>
    (.ok (s.users.find? (fun v => v.mongoId == u.mongoId)),
     ⟨removeFirst (fun v => v.mongoId == u.mongoId) s.users, s.txns, s.nextId⟩)

/-- The `$inc` effect of updateCredits on the matched document: one atomic
store-level increment of creditBalance, never a fetch-then-write. -/
def incCredits (creditFee : Int) (u : User) : User :=
  { u with creditBalance := u.creditBalance + creditFee }

/-- updateCredits (user.actions.ts, lines 120-136): `findOneAndUpdate({_id},
{$inc: {creditBalance: creditFee}}, {new:true})`; a null result throws
"User credits update failed", rethrown wrapped by handleError. -/
def updateCredits (s : Store) (userId : Nat) (creditFee : Int) :
    Except JsError User × Store :=
  match s.users.find? (fun u => u.mongoId == userId) with
  | none => (.error (handleError .creditsUpdateFailed), s)
  | some u =>
    (.ok (incCredits creditFee u),
     ⟨updateFirst (fun v => v.mongoId == userId) (incCredits creditFee) s.users,
      s.txns, s.nextId⟩)

/-- The data carried by a Clerk `user.created` webhook event, as destructured
by the handler: id, email_addresses, image_url, first_name, last_name,
username. -/
structure CreatedEventData where
  id : String
  emailAddresses : List String
  imageUrl : String
  firstName : String
  lastName : String
  username : String
  deriving DecidableEq, Repr

/-- The `user.created` branch of the Clerk webhook POST handler: it reads
`email_addresses[0].email_address` unguarded (a TypeError is thrown before any
store access when the list is empty), builds CreateUserParams and calls
createUser with no surrounding try/catch, so any error createUser throws
escapes the POST handler.  (The subsequent Clerk-metadata update is a call to
the external identity provider and does not touch the store.) -/
def handleUserCreated (s : Store) (ev : CreatedEventData) : Except JsError User × Store :=
  match ev.emailAddresses.head? with
  | none => (.error .typeError, s)
  | some em =>
    createUser s ⟨ev.id, em, ev.username, ev.firstName, ev.lastName, ev.imageUrl⟩

/-- The `user.updated` branch of the webhook POST handler: builds
UpdateUserParams and calls updateUser with no surrounding try/catch. -/
def handleUserUpdated (s : Store) (id : String) (p : UpdateUserParams) :
    Except JsError User × Store :=
  updateUser s id p

/-- The `user.deleted` branch of the webhook POST handler: calls deleteUser
with no surrounding try/catch. -/
def handleUserDeleted (s : Store) (id : String) : Except JsError (Option User) × Store :=
  deleteUser s id

/-- Modelled from the spec: the Transaction Recorder operation (`record`, the
createTransaction action) is not among the provided sources; only its schema
with the unique stripeId index (src/lib/database/models/transaction.model.ts)
is.  Following spec section 4.4 over that index: record inserts a Transaction,
and a second insert attempt with an already-recorded payment id is rejected by
the unique index and fails distinguishably as AlreadyRecorded. -/
def recordTransaction (s : Store) (p : CreateTransactionParams) :
    Except JsError Txn × Store :=
  if s.txns.any (fun t => t.stripeId == p.stripeId) then
    (.error .alreadyRecorded, s)
  else
    let t : Txn := ⟨p.createdAt, p.stripeId, p.amount, p.plan, p.credits, p.buyerId⟩
    (.ok t, ⟨s.users, s.txns ++ [t], s.nextId⟩)

/-- The operations of the embedded core, for reachability of store states. -/
inductive Op where
  | opCreateUser : CreateUserParams → Op
  | opUpdateUser : String → UpdateUserParams → Op
  | opDeleteUser : String → Op
  | opUpdateCredits : Nat → Int → Op
  | opRecord : CreateTransactionParams → Op
  deriving DecidableEq, Repr

/-- The store effect of one core operation (the result value is discarded;
a failing operation leaves the store unchanged). -/
def applyOp (s : Store) : Op → Store
  | .opCreateUser p => (createUser s p).2
  | .opUpdateUser cid p => (updateUser s cid p).2
  | .opDeleteUser cid => (deleteUser s cid).2
  | .opUpdateCredits uid fee => (updateCredits s uid fee).2
  | .opRecord p => (recordTransaction s p).2

/-- The empty store a fresh deployment starts from. -/
def initStore : Store := ⟨[], [], 0⟩

/-- Store states reachable from the empty store through core operations. -/
inductive Reachable : Store → Prop where
  | init : Reachable initStore
  | step {s : Store} (op : Op) : Reachable s → Reachable (applyOp s op)

/-- A concrete user with the schema defaults, for witnesses. -/
def userEx : User := ⟨0, "c1", "a@b.c", "u1", "p.png", "F", "L", 1, 10⟩

/-- A concrete store holding exactly userEx, for witnesses. -/
def storeOneUser : Store := ⟨[userEx], [], 1⟩

theorem find?_updateFirst (p : α → Bool) (f : α → α) (hf : ∀ a, p (f a) = p a)
    (l : List α) : (updateFirst p f l).find? p = (l.find? p).map f := by
  induction l with
  | nil => rfl
  | cons x xs ih =>
    by_cases hx : p x
    · rw [updateFirst, if_pos hx, List.find?_cons_of_pos _ (by rw [hf x]; exact hx),
        List.find?_cons_of_pos _ hx]
      rfl
    · rw [updateFirst, if_neg hx, List.find?_cons_of_neg _ hx,
        List.find?_cons_of_neg _ hx, ih]

theorem updateFirst_updateFirst (p : α → Bool) (f g : α → α) (hg : ∀ a, p (g a) = p a)
    (l : List α) :
    updateFirst p f (updateFirst p g l) = updateFirst p (fun a => f (g a)) l := by
  induction l with
  | nil => rfl
  | cons x xs ih =>
    by_cases hx : p x
    · rw [updateFirst, if_pos hx, updateFirst, if_pos (show p (g x) by rw [hg x]; exact hx),
        updateFirst, if_pos hx]
    · rw [updateFirst, if_neg hx, updateFirst, if_neg hx, updateFirst, if_neg hx, ih]

theorem updateFirst_congr (p : α → Bool) (f g : α → α) (h : ∀ a, f a = g a)
    (l : List α) : updateFirst p f l = updateFirst p g l := by
  induction l with
  | nil => rfl
  | cons x xs ih => rw [updateFirst, updateFirst, h x, ih]

theorem mem_updateFirst (p : α → Bool) (f : α → α) (l : List α) (v : α)
    (hv : v ∈ updateFirst p f l) : v ∈ l ∨ ∃ w ∈ l, v = f w := by
  induction l with
  | nil => rw [updateFirst] at hv; cases hv
  | cons x xs ih =>
    by_cases hx : p x
    · rw [updateFirst, if_pos hx] at hv
      rcases List.mem_cons.mp hv with h1 | h1
      · exact Or.inr ⟨x, List.mem_cons_self x xs, h1⟩
      · exact Or.inl (List.mem_cons_of_mem x h1)
    · rw [updateFirst, if_neg hx] at hv
      rcases List.mem_cons.mp hv with h1 | h1
      · exact Or.inl (h1 ▸ List.mem_cons_self x xs)
      · rcases ih h1 with h2 | ⟨w, hw, hvw⟩
        · exact Or.inl (List.mem_cons_of_mem x h2)
        · exact Or.inr ⟨w, List.mem_cons_of_mem x hw, hvw⟩

theorem incCredits_incCredits (d1 d2 : Int) (a : User) :
    incCredits d2 (incCredits d1 a) = incCredits (d1 + d2) a := by
  simp only [incCredits]
  congr 1
  exact add_assoc a.creditBalance d1 d2

theorem updateCredits_eq_of_found (s : Store) (uid : Nat) (d : Int) (u : User)
    (h : s.users.find? (fun v => v.mongoId == uid) = some u) :
    updateCredits s uid d =
      (.ok (incCredits d u),
       ⟨updateFirst (fun v => v.mongoId == uid) (incCredits d) s.users, s.txns, s.nextId⟩) := by
  simp only [updateCredits, h]

/-- Claim C1: updateCredits applies its delta as one atomic store-level
increment, so two adjustments on the same user commute and their effects sum:
applying the deltas d1 and d2 in either order yields the same store, and the
user's balance ends at (initial + d1 + d2) — in particular +5 then -3 in
either order ends at (initial + 2). -/
theorem adjustBalance_commute_and_sum (s : Store) (uid : Nat) (u : User) (d1 d2 : Int)
    (h : s.users.find? (fun v => v.mongoId == uid) = some u) :
    applyOp (applyOp s (.opUpdateCredits uid d1)) (.opUpdateCredits uid d2) =
      applyOp (applyOp s (.opUpdateCredits uid d2)) (.opUpdateCredits uid d1) ∧
    (applyOp (applyOp s (.opUpdateCredits uid d1)) (.opUpdateCredits uid d2)).users.find?
        (fun v => v.mongoId == uid) = some (incCredits (d1 + d2) u) ∧
    (incCredits (d1 + d2) u).creditBalance = u.creditBalance + d1 + d2 := by
  have hp : ∀ d : Int, ∀ a : User,
      ((incCredits d a).mongoId == uid) = (a.mongoId == uid) := fun d a => rfl
  have key : ∀ e1 e2 : Int,
      applyOp (applyOp s (.opUpdateCredits uid e1)) (.opUpdateCredits uid e2) =
        ⟨updateFirst (fun v => v.mongoId == uid) (incCredits (e1 + e2)) s.users,
         s.txns, s.nextId⟩ := by
    intro e1 e2
    have h1 : applyOp s (.opUpdateCredits uid e1) =
        ⟨updateFirst (fun v => v.mongoId == uid) (incCredits e1) s.users,
         s.txns, s.nextId⟩ := by
      rw [applyOp, updateCredits_eq_of_found s uid e1 u h]
    have hfind : (updateFirst (fun v => v.mongoId == uid) (incCredits e1) s.users).find?
        (fun v => v.mongoId == uid) = some (incCredits e1 u) := by
      rw [find?_updateFirst _ _ (hp e1) s.users, h]
      rfl
    rw [h1, applyOp, updateCredits_eq_of_found _ uid e2 (incCredits e1 u) hfind]
    rw [updateFirst_updateFirst _ _ _ (hp e1) s.users,
      updateFirst_congr _ _ _ (incCredits_incCredits e1 e2) s.users]
  refine ⟨?_, ?_, ?_⟩
  · rw [key d1 d2, key d2 d1, add_comm d2 d1]
  · rw [key d1 d2, find?_updateFirst _ _ (hp (d1 + d2)) s.users, h]
    rfl
  · simp only [incCredits]
    exact (add_assoc u.creditBalance d1 d2).symm

/-- Claim C1 witness: a concrete user with balance 10; +5 and -3 in either
order give the same store and balance 12 = 10 + 2. -/
theorem adjustBalance_commute_and_sum_witness :
    applyOp (applyOp storeOneUser (.opUpdateCredits 0 5)) (.opUpdateCredits 0 (-3)) =
      applyOp (applyOp storeOneUser (.opUpdateCredits 0 (-3))) (.opUpdateCredits 0 5) ∧
    (applyOp (applyOp storeOneUser (.opUpdateCredits 0 5))
        (.opUpdateCredits 0 (-3))).users.find? (fun v => v.mongoId == 0) =
      some (incCredits (5 + -3) userEx) ∧
    (incCredits (5 + -3) userEx).creditBalance = userEx.creditBalance + 5 + -3 :=
  adjustBalance_commute_and_sum storeOneUser 0 userEx 5 (-3) rfl

/-- Claim C7: for a user present in the store, updateCredits succeeds for every
integer delta and returns the user with balance (previous + delta) — no
non-negative floor is enforced — and it fails (the thrown not-found error
"User credits update failed", rethrown wrapped by handleError) exactly when the
user id does not resolve. -/
theorem updateCredits_total_spec (s : Store) (uid : Nat) (d : Int) :
    (∀ u, s.users.find? (fun v => v.mongoId == uid) = some u →
      updateCredits s uid d =
        (.ok (incCredits d u),
         ⟨updateFirst (fun v => v.mongoId == uid) (incCredits d) s.users,
          s.txns, s.nextId⟩) ∧
      (incCredits d u).creditBalance = u.creditBalance + d) ∧
    (s.users.find? (fun v => v.mongoId == uid) = none →
      updateCredits s uid d = (.error (.wrapped .creditsUpdateFailed), s)) := by
  constructor
  · intro u hu
    exact ⟨updateCredits_eq_of_found s uid d u hu, rfl⟩
  · intro hn
    simp only [updateCredits, hn]
    rfl

/-- Claim C7 witness: a delta of -100 on a user with balance 10 succeeds and
drives the balance to -90 (no floor), and on the empty store the same call
fails with the wrapped not-found error. -/
theorem updateCredits_total_spec_witness :
    (updateCredits storeOneUser 0 (-100) =
      (.ok (incCredits (-100) userEx),
       ⟨updateFirst (fun v => v.mongoId == 0) (incCredits (-100)) storeOneUser.users,
        storeOneUser.txns, storeOneUser.nextId⟩) ∧
     (incCredits (-100) userEx).creditBalance = userEx.creditBalance + -100) ∧
    updateCredits initStore 0 (-100) = (.error (.wrapped .creditsUpdateFailed), initStore) :=
  ⟨(updateCredits_total_spec storeOneUser 0 (-100)).1 userEx rfl,
   (updateCredits_total_spec initStore 0 (-100)).2 rfl⟩

/-- Claim C8: the profile-update path sets only the four mutable profile
fields; the matched user's clerkId, creditBalance and planId are unchanged,
both in the returned document and for every document of the resulting store. -/
theorem updateUser_frame (s : Store) (cid : String) (p : UpdateUserParams) (u : User)
    (h : s.users.find? (fun v => v.clerkId == cid) = some u) :
    ∃ u2 s2, updateUser s cid p = (.ok u2, s2) ∧
      u2.clerkId = u.clerkId ∧ u2.creditBalance = u.creditBalance ∧ u2.planId = u.planId ∧
      s2.txns = s.txns ∧
      ∀ v ∈ s2.users, ∃ w ∈ s.users,
        v.clerkId = w.clerkId ∧ v.creditBalance = w.creditBalance ∧ v.planId = w.planId := by
  have he : updateUser s cid p =
      (.ok (applyProfileUpdate p u),
       ⟨updateFirst (fun v => v.clerkId == cid) (applyProfileUpdate p) s.users,
        s.txns, s.nextId⟩) := by
    simp only [updateUser, h]
  refine ⟨applyProfileUpdate p u, _, he, rfl, rfl, rfl, rfl, ?_⟩
  intro v hv
  rcases mem_updateFirst _ _ _ _ hv with h1 | ⟨w, hw, hvw⟩
  · exact ⟨v, h1, rfl, rfl, rfl⟩
  · exact ⟨w, hw, by rw [hvw]; exact ⟨rfl, rfl, rfl⟩⟩

/-- Claim C8 witness: a concrete profile update on a concrete user leaves its
clerkId, creditBalance and planId untouched. -/
theorem updateUser_frame_witness :
    ∃ u2 s2, updateUser storeOneUser "c1" ⟨"G", "M", "gm", "q.png"⟩ = (.ok u2, s2) ∧
      u2.clerkId = userEx.clerkId ∧ u2.creditBalance = userEx.creditBalance ∧
      u2.planId = userEx.planId ∧ s2.txns = storeOneUser.txns ∧
      ∀ v ∈ s2.users, ∃ w ∈ storeOneUser.users,
        v.clerkId = w.clerkId ∧ v.creditBalance = w.creditBalance ∧ v.planId = w.planId :=
  updateUser_frame storeOneUser "c1" ⟨"G", "M", "gm", "q.png"⟩ userEx rfl

/-- Claim C10: the created branch reads email_addresses[0].email_address
unguarded, so on an event with an empty email_addresses list it throws a
TypeError before any store access: the handler fails and the store is
unchanged. -/
theorem created_requires_email (s : Store) (ev : CreatedEventData)
    (h : ev.emailAddresses = []) :
    handleUserCreated s ev = (.error .typeError, s) := by
  rw [handleUserCreated, h]
  rfl

/-- Claim C10 witness: a concrete created event with no email address fails
with the TypeError and leaves the concrete store unchanged. -/
theorem created_requires_email_witness :
    handleUserCreated storeOneUser ⟨"c9", [], "p.png", "F", "L", "f9"⟩ =
      (.error .typeError, storeOneUser) :=
  created_requires_email storeOneUser ⟨"c9", [], "p.png", "F", "L", "f9"⟩ rfl

/-- A concrete created event for the C3 counterexample and witness. -/
def evReplay : CreatedEventData := ⟨"user_1", ["a@b.c"], "p.png", "Ann", "Lee", "ann"⟩

/-- Claim C3 counterexample: replaying the same created event on the store the
first delivery produced does not end in success — the duplicate-key error from
the unique clerkId index is rethrown (wrapped) by createUser and escapes the
webhook handler, which has no try/catch, instead of being absorbed as
idempotent success. -/
theorem created_replay_not_absorbed_cx :
    (handleUserCreated (handleUserCreated initStore evReplay).2 evReplay).1 =
      .error (.wrapped .dupKey) := rfl

/-- Claim C3 (amended): replaying an identical created event after a
successful first delivery leaves exactly one User row with that identity id —
the store-level unique index rejects the second insert and the store is
unchanged — but the duplicate-create failure is not absorbed as success: it
escapes the sync handler as the wrapped duplicate-key error. -/
theorem created_replay_one_row (s s1 : Store) (ev : CreatedEventData) (u : User)
    (h : handleUserCreated s ev = (.ok u, s1)) :
    handleUserCreated s1 ev = (.error (.wrapped .dupKey), s1) ∧
    s1.users.countP (fun v => v.clerkId == ev.id) = 1 := by
  rcases hev : ev.emailAddresses with _ | ⟨em, rest⟩
  · simp only [handleUserCreated, hev, List.head?_nil] at h
    exact Except.noConfusion (congrArg Prod.fst h)
  · simp only [handleUserCreated, hev, List.head?_cons] at h
    by_cases hc : userConflict s ⟨ev.id, em, ev.username, ev.firstName, ev.lastName, ev.imageUrl⟩
    · rw [createUser, if_pos hc] at h
      exact Except.noConfusion (congrArg Prod.fst h)
    · rw [createUser, if_neg hc] at h
      rw [Bool.not_eq_true] at hc
      injection h with h1 h2
      injection h1 with h1
      subst h2
      subst h1
      constructor
      · have hc1 : userConflict
            ⟨s.users ++ [freshUser s ⟨ev.id, em, ev.username, ev.firstName, ev.lastName,
              ev.imageUrl⟩], s.txns, s.nextId + 1⟩
            ⟨ev.id, em, ev.username, ev.firstName, ev.lastName, ev.imageUrl⟩ = true := by
          apply List.any_eq_true.mpr
          refine ⟨freshUser s ⟨ev.id, em, ev.username, ev.firstName, ev.lastName, ev.imageUrl⟩,
            List.mem_append_right _ (List.mem_cons_self _ _), ?_⟩
          simp [freshUser]
        simp only [handleUserCreated, hev, List.head?_cons]
        rw [createUser, if_pos hc1]
        rfl
      · have h0 : (s.users).countP (fun v => v.clerkId == ev.id) = 0 := by
          apply List.countP_eq_zero.mpr
          intro a ha hpa
          have := List.any_eq_false.mp hc a ha
          simp only [Bool.or_eq_true, not_or] at this
          exact this.1.1 hpa
        rw [List.countP_append, h0]
        simp [freshUser, List.countP_cons]

/-- Claim C3 (amended) witness: the concrete replay of evReplay from the empty
store errors on the second delivery and leaves exactly one row with its
identity id. -/
theorem created_replay_one_row_witness :
    handleUserCreated (handleUserCreated initStore evReplay).2 evReplay =
      (.error (.wrapped .dupKey), (handleUserCreated initStore evReplay).2) ∧
    (handleUserCreated initStore evReplay).2.users.countP
      (fun v => v.clerkId == evReplay.id) = 1 :=
  created_replay_one_row initStore (handleUserCreated initStore evReplay).2 evReplay
    ⟨0, "user_1", "a@b.c", "ann", "p.png", "Ann", "Lee", 1, 10⟩ rfl

/-- Claim C4 counterexample: a deleted event for an identity id with no
matching user is not a successful no-op — deleteUser throws "User not found",
handleError rethrows it wrapped, and the webhook handler, which has no
try/catch, lets it escape to its caller. -/
theorem deleted_missing_not_noop_cx :
    (handleUserDeleted initStore "user_1").1 = .error (.wrapped .userNotFound) := rfl

/-- Claim C4 (amended): a deleted event for an identity id with no matching
user leaves the store unchanged, but is not treated as a successful no-op: the
wrapped "User not found" error propagates out of the sync handler. -/
theorem deleted_missing_user (s : Store) (cid : String)
    (h : s.users.find? (fun v => v.clerkId == cid) = none) :
    handleUserDeleted s cid = (.error (.wrapped .userNotFound), s) := by
  rw [handleUserDeleted, deleteUser, h]
  rfl

/-- Claim C4 (amended) witness: deleting a concrete absent identity id from a
concrete store errors with the wrapped not-found error and leaves the store
unchanged. -/
theorem deleted_missing_user_witness :
    handleUserDeleted storeOneUser "ghost" =
      (.error (.wrapped .userNotFound), storeOneUser) :=
  deleted_missing_user storeOneUser "ghost" rfl

/-- Claim C5 counterexample: an updated event for an identity id with no prior
created event is not reported as a recoverable NotFound failure — updateUser
throws "User update failed", handleError rethrows it wrapped, and the webhook
handler, which has no try/catch, lets the exception escape (crashing the
request) instead of returning a reported failure. -/
theorem updated_missing_not_reported_cx :
    (handleUserUpdated initStore "user_1" ⟨"Ann", "Lee", "ann", "p.png"⟩).1 =
      .error (.wrapped .updateFailed) := rfl

/-- Claim C5 (amended): an updated event for an identity id with no prior
created event creates no User row — the store is unchanged — but the condition
is not reported as a recoverable NotFound: the wrapped generic "User update
failed" error escapes the sync handler uncaught. -/
theorem updated_missing_user (s : Store) (cid : String) (p : UpdateUserParams)
    (h : s.users.find? (fun v => v.clerkId == cid) = none) :
    handleUserUpdated s cid p = (.error (.wrapped .updateFailed), s) := by
  rw [handleUserUpdated, updateUser, h]
  rfl

/-- Claim C5 (amended) witness: a concrete updated event on the empty store
errors with the wrapped update-failure and creates no row. -/
theorem updated_missing_user_witness :
    handleUserUpdated initStore "user_1" ⟨"Ann", "Lee", "ann", "p.png"⟩ =
      (.error (.wrapped .updateFailed), initStore) :=
  updated_missing_user initStore "user_1" ⟨"Ann", "Lee", "ann", "p.png"⟩ rfl

/-- stripeId uniqueness across the Transaction collection: the invariant the
unique index enforces. -/
def txnsUnique (s : Store) : Prop :=
  s.txns.Pairwise fun a b => a.stripeId ≠ b.stripeId

theorem applyOp_txns (s : Store) (op : Op) :
    (applyOp s op).txns = s.txns ∨
    ∃ p, op = .opRecord p ∧ s.txns.any (fun t => t.stripeId == p.stripeId) = false ∧
      (applyOp s op).txns =
        s.txns ++ [⟨p.createdAt, p.stripeId, p.amount, p.plan, p.credits, p.buyerId⟩] := by
  cases op with
  | opCreateUser p =>
    left
    by_cases hc : userConflict s p
    · simp only [applyOp, createUser, if_pos hc]
    · simp only [applyOp, createUser, if_neg hc]
  | opUpdateUser cid p =>
    left
    rcases hf : s.users.find? (fun u => u.clerkId == cid) with _ | u
    · simp only [applyOp, updateUser, hf]
    · simp only [applyOp, updateUser, hf]
  | opDeleteUser cid =>
    left
    rcases hf : s.users.find? (fun u => u.clerkId == cid) with _ | u
    · simp only [applyOp, deleteUser, hf]
    · simp only [applyOp, deleteUser, hf]
  | opUpdateCredits uid fee =>
    left
    rcases hf : s.users.find? (fun u => u.mongoId == uid) with _ | u
    · simp only [applyOp, updateCredits, hf]
    · simp only [applyOp, updateCredits, hf]
  | opRecord p =>
    by_cases hr : s.txns.any (fun t => t.stripeId == p.stripeId)
    · left
      simp only [applyOp, recordTransaction, if_pos hr]
    · right
      refine ⟨p, rfl, by rwa [Bool.not_eq_true] at hr, ?_⟩
      simp only [applyOp, recordTransaction, if_neg hr]

theorem txnsUnique_reachable (s : Store) (hs : Reachable s) : txnsUnique s := by
  induction hs with
  | init => exact List.Pairwise.nil
  | step op hr ih =>
    rcases applyOp_txns _ op with he | ⟨p, _, hany, he⟩
    · rw [txnsUnique, he]
      exact ih
    · rw [txnsUnique, he, List.pairwise_append]
      refine ⟨ih, List.pairwise_singleton _ _, ?_⟩
      intro a ha b hb
      rw [List.mem_singleton] at hb
      subst hb
      exact fun hEq => (List.any_eq_false.mp hany a ha) (beq_iff_eq.mpr hEq)

/-- Claim C2: in every reachable store state at most one Transaction exists
per payment id (a pairwise-distinct stripeId invariant), a second record
attempt with an already-recorded payment id fails distinguishably as
AlreadyRecorded with the store unchanged, and no core operation updates or
deletes an existing Transaction (every recorded Transaction persists,
unchanged, through every operation). -/
theorem transaction_per_payment_id (s : Store) (hs : Reachable s) :
    txnsUnique s ∧
    (∀ p, (∃ t ∈ s.txns, t.stripeId = p.stripeId) →
      recordTransaction s p = (.error .alreadyRecorded, s)) ∧
    (∀ op t, t ∈ s.txns → t ∈ (applyOp s op).txns) := by
  refine ⟨txnsUnique_reachable s hs, ?_, ?_⟩
  · rintro p ⟨t, ht, hts⟩
    have hany : s.txns.any (fun t => t.stripeId == p.stripeId) = true :=
      List.any_eq_true.mpr ⟨t, ht, beq_iff_eq.mpr hts⟩
    rw [recordTransaction, if_pos hany]
  · intro op t ht
    rcases applyOp_txns s op with he | ⟨p, _, _, he⟩
    · rw [he]
      exact ht
    · rw [he]
      exact List.mem_append_left _ ht

/-- A concrete payment-completion record for the C2 witness. -/
def txnP1 : CreateTransactionParams := ⟨"pi_1", 999, 50, "pro", 0, 0⟩

/-- Claim C2 witness: after recording txnP1 in the (reachable) store, a second
record attempt with the same payment id fails as AlreadyRecorded and leaves
the store unchanged. -/
theorem transaction_per_payment_id_witness :
    recordTransaction (applyOp initStore (.opRecord txnP1)) txnP1 =
      (.error .alreadyRecorded, applyOp initStore (.opRecord txnP1)) :=
  (transaction_per_payment_id (applyOp initStore (.opRecord txnP1))
      (Reachable.step (.opRecord txnP1) Reachable.init)).2.1 txnP1
    ⟨⟨0, "pi_1", 999, "pro", 50, 0⟩, by decide, rfl⟩

/-- The module-level connection cache of src/lib/database/mongoose.ts: the
active handle (`conn`), the memoized in-flight connect attempt (`promise`,
identified by its attempt number), plus a count of how many mongoose.connect
invocations have been started.  Attempt a settles to `outcome a` of the
ambient settle function. -/
structure ConnCache where
  conn : Option Nat
  promise : Option Nat
  attempts : Nat
  deriving DecidableEq, Repr

instance {ε α : Type} [DecidableEq ε] [DecidableEq α] :
    DecidableEq (Except ε α) := fun a b =>
  match a, b with
  | .ok x, .ok y =>
    if h : x = y then .isTrue (congrArg Except.ok h)
    else .isFalse fun hc => h (Except.ok.inj hc)
  | .error x, .error y =>
    if h : x = y then .isTrue (congrArg Except.error h)
    else .isFalse fun hc => h (Except.error.inj hc)
  | .ok _, .error _ => .isFalse fun hc => Except.noConfusion hc
  | .error _, .ok _ => .isFalse fun hc => Except.noConfusion hc

/-- The control point of one caller of connectToDatabase: not yet entered,
suspended at `await cached.promise` on attempt a, or finished with result r
(a returned handle or a thrown error). -/
inductive CallerPC where
  | start : CallerPC
  | awaiting : Nat → CallerPC
  | done : Except JsError Nat → CallerPC
  deriving DecidableEq, Repr

/-- A configuration: the shared cache plus each concurrent caller's point. -/
structure ConnConfig where
  cache : ConnCache
  procs : List CallerPC
  deriving DecidableEq, Repr

/-- The synchronous prologue of connectToDatabase (mongoose.ts lines 40-53),
which JavaScript's run-to-completion scheduling executes atomically up to the
first await: return cached.conn if set; throw 'Missing MONGODB_URL' when the
url is absent; otherwise keep the memoized promise or start — and memoize —
one new mongoose.connect attempt, then suspend awaiting that promise. -/
def connectPrologue (hasUrl : Bool) (c : ConnCache) : ConnCache × CallerPC :=
  match c.conn with
  | some h => (c, .done (.ok h))
  | none =>
    match hasUrl with
    | false => (c, .done (.error .missingUrl))
    | true =>
      match c.promise with
      | some a => (c, .awaiting a)
      | none => (⟨c.conn, some c.attempts, c.attempts + 1⟩, .awaiting c.attempts)

/-- Resumption at `cached.conn = await cached.promise` (mongoose.ts line 56)
once the awaited attempt has settled: on fulfilment the handle is stored in
conn and returned; on rejection the error is rethrown, conn stays null, and
the rejected promise remains memoized. -/
def connectResume (outcome : Nat → Except JsError Nat) (a : Nat) (c : ConnCache) :
    ConnCache × CallerPC :=
  match outcome a with
  | .ok h => (⟨some h, c.promise, c.attempts⟩, .done (.ok h))
  | .error e => (c, .done (.error e))

/-- Interleaving semantics: at each step one caller runs its prologue, or
resumes if the attempt it awaits has settled. -/
inductive ConnStep (hasUrl : Bool) (outcome : Nat → Except JsError Nat) :
    ConnConfig → ConnConfig → Prop where
  | prologue (c : ConnCache) (pre post : List CallerPC) :
      ConnStep hasUrl outcome ⟨c, pre ++ .start :: post⟩
        ⟨(connectPrologue hasUrl c).1, pre ++ (connectPrologue hasUrl c).2 :: post⟩
  | resume (c : ConnCache) (a : Nat) (pre post : List CallerPC) :
      ConnStep hasUrl outcome ⟨c, pre ++ .awaiting a :: post⟩
        ⟨(connectResume outcome a c).1, pre ++ (connectResume outcome a c).2 :: post⟩

/-- The initial configuration: empty cache (conn and promise both null) and n
callers about to invoke connectToDatabase. -/
def connInit (n : Nat) : ConnConfig := ⟨⟨none, none, 0⟩, List.replicate n .start⟩

/-- Configurations reachable by interleaving the n concurrent callers. -/
inductive ConnReachable (hasUrl : Bool) (outcome : Nat → Except JsError Nat) (n : Nat) :
    ConnConfig → Prop where
  | init : ConnReachable hasUrl outcome n (connInit n)
  | step {c1 c2 : ConnConfig} : ConnReachable hasUrl outcome n c1 →
      ConnStep hasUrl outcome c1 c2 → ConnReachable hasUrl outcome n c2

/-- The memoization invariant of the connection cache (url present): only
attempt 0 ever starts, conn caches only attempt 0's fulfilment, every
suspended caller awaits attempt 0, and every finished caller carries
attempt 0's outcome. -/
def ConnInv (outcome : Nat → Except JsError Nat) (cfg : ConnConfig) : Prop :=
  (cfg.cache.promise = none → cfg.cache.attempts = 0) ∧
  (∀ a, cfg.cache.promise = some a → a = 0 ∧ cfg.cache.attempts = 1) ∧
  (∀ h, cfg.cache.conn = some h → cfg.cache.promise = some 0 ∧ outcome 0 = .ok h) ∧
  ∀ pc ∈ cfg.procs,
    (∀ a, pc = .awaiting a → a = 0 ∧ cfg.cache.promise = some 0) ∧
    (∀ r, pc = .done r → r = outcome 0)

theorem mem_middle_cases {pc x y : CallerPC} {pre post : List CallerPC}
    (h : pc ∈ pre ++ x :: post) : pc = x ∨ pc ∈ pre ++ y :: post := by
  rcases List.mem_append.mp h with h1 | h1
  · exact Or.inr (List.mem_append_left _ h1)
  · rcases List.mem_cons.mp h1 with h2 | h2
    · exact Or.inl h2
    · exact Or.inr (List.mem_append_right _ (List.mem_cons_of_mem _ h2))

theorem connInv_init (outcome : Nat → Except JsError Nat) (n : Nat) :
    ConnInv outcome (connInit n) := by
  refine ⟨fun _ => rfl, ?_, ?_, ?_⟩
  · intro a ha
    exact Option.noConfusion ha
  · intro h hh
    exact Option.noConfusion hh
  · intro pc hpc
    have hst : pc = .start := List.eq_of_mem_replicate hpc
    subst hst
    exact ⟨fun a ha => CallerPC.noConfusion ha, fun r hr => CallerPC.noConfusion hr⟩

theorem connInv_step (outcome : Nat → Except JsError Nat) {c1 c2 : ConnConfig}
    (hstep : ConnStep true outcome c1 c2) (hinv : ConnInv outcome c1) :
    ConnInv outcome c2 := by
  obtain ⟨h1, h2, h3, h4⟩ := hinv
  cases hstep with
  | prologue c pre post =>
    obtain ⟨conn, prom, att⟩ := c
    rcases conn with _ | h
    · rcases prom with _ | a
      · -- no conn, no promise: a fresh attempt is started and memoized
        have hatt : att = 0 := h1 rfl
        subst hatt
        have hpro : connectPrologue true ⟨none, none, 0⟩ =
            (⟨none, some 0, 1⟩, .awaiting 0) := rfl
        rw [hpro]
        refine ⟨fun hx => Option.noConfusion hx, ?_,
          fun hx hhx => Option.noConfusion hhx, ?_⟩
        · intro a2 ha2
          exact ⟨(Option.some.inj ha2).symm, rfl⟩
        · intro pc hpc
          rcases mem_middle_cases (y := CallerPC.start) hpc with rfl | hold
          · refine ⟨?_, fun r hr => CallerPC.noConfusion hr⟩
            intro a2 ha2
            exact ⟨(CallerPC.awaiting.inj ha2).symm, rfl⟩
          · refine ⟨?_, (h4 pc hold).2⟩
            intro a2 ha2
            exact Option.noConfusion ((h4 pc hold).1 a2 ha2).2
      · -- no conn, promise memoized: join the in-flight attempt
        obtain ⟨rfl, hatt1⟩ := h2 a rfl
        have hpro : connectPrologue true ⟨none, some 0, att⟩ =
            (⟨none, some 0, att⟩, .awaiting 0) := rfl
        rw [hpro]
        refine ⟨h1, h2, h3, ?_⟩
        intro pc hpc
        rcases mem_middle_cases (y := CallerPC.start) hpc with rfl | hold
        · refine ⟨?_, fun r hr => CallerPC.noConfusion hr⟩
          intro a2 ha2
          exact ⟨(CallerPC.awaiting.inj ha2).symm, rfl⟩
        · exact h4 pc hold
    · -- conn already cached: return it synchronously
      have hpro : connectPrologue true ⟨some h, prom, att⟩ =
          (⟨some h, prom, att⟩, .done (.ok h)) := rfl
      rw [hpro]
      refine ⟨h1, h2, h3, ?_⟩
      intro pc hpc
      rcases mem_middle_cases (y := CallerPC.start) hpc with rfl | hold
      · refine ⟨fun a2 ha2 => CallerPC.noConfusion ha2, ?_⟩
        intro r hr
        rw [← CallerPC.done.inj hr]
        exact ((h3 h rfl).2).symm
      · exact h4 pc hold
  | resume c a pre post =>
    have hmem : CallerPC.awaiting a ∈ pre ++ CallerPC.awaiting a :: post :=
      List.mem_append_right _ (List.mem_cons_self _ _)
    obtain ⟨rfl, hprom⟩ := (h4 _ hmem).1 a rfl
    rcases ho : outcome 0 with e | h
    · -- rejection: conn stays null, the rejected promise stays memoized
      have hres : connectResume outcome 0 c = (c, .done (.error e)) := by
        simp only [connectResume, ho]
      rw [hres]
      refine ⟨h1, h2, h3, ?_⟩
      intro pc hpc
      rcases mem_middle_cases (y := CallerPC.awaiting 0) hpc with rfl | hold
      · refine ⟨fun a2 ha2 => CallerPC.noConfusion ha2, ?_⟩
        intro r hr
        rw [← CallerPC.done.inj hr, ho]
      · exact h4 pc hold
    · -- fulfilment: the handle is cached in conn and returned
      have hres : connectResume outcome 0 c =
          (⟨some h, c.promise, c.attempts⟩, .done (.ok h)) := by
        simp only [connectResume, ho]
      rw [hres]
      refine ⟨?_, ?_, ?_, ?_⟩
      · intro hx
        rw [hprom] at hx
        exact Option.noConfusion hx
      · intro a2 ha2
        exact h2 a2 ha2
      · intro h2x hh
        refine ⟨hprom, ?_⟩
        rw [ho]
        exact congrArg Except.ok (Option.some.inj hh)
      · intro pc hpc
        rcases mem_middle_cases (y := CallerPC.awaiting 0) hpc with rfl | hold
        · refine ⟨fun a2 ha2 => CallerPC.noConfusion ha2, ?_⟩
          intro r hr
          rw [← CallerPC.done.inj hr, ho]
        · refine ⟨?_, (h4 pc hold).2⟩
          intro a2 ha2
          exact ⟨((h4 pc hold).1 a2 ha2).1, hprom⟩

theorem connInv_reachable (outcome : Nat → Except JsError Nat) (n : Nat)
    (cfg : ConnConfig) (h : ConnReachable true outcome n cfg) : ConnInv outcome cfg := by
  induction h with
  | init => exact connInv_init outcome n
  | step hr hs ih => exact connInv_step outcome hs ih

/-- Claim C6: with the url configured and the connect attempt fulfilling with
handle h0, every configuration reachable by any interleaving of the n
concurrent callers has started at most one underlying mongoose.connect
attempt, and every caller that has finished received that same handle h0 —
the first caller memoizes the in-flight attempt and later callers share it or
return the cached handle. -/
theorem connect_memoizes_single_attempt (outcome : Nat → Except JsError Nat) (n : Nat)
    (cfg : ConnConfig) (h0 : Nat) (hr : ConnReachable true outcome n cfg)
    (hok : outcome 0 = .ok h0) :
    cfg.cache.attempts ≤ 1 ∧
    ∀ pc ∈ cfg.procs, ∀ r, pc = .done r → r = .ok h0 := by
  obtain ⟨h1, h2, h3, h4⟩ := connInv_reachable outcome n cfg hr
  constructor
  · rcases hp : cfg.cache.promise with _ | a
    · have := h1 hp
      omega
    · have := (h2 a hp).2
      omega
  · intro pc hpc r hr2
    rw [(h4 pc hpc).2 r hr2, hok]

/-- The settle function of the C6 witness: the attempt fulfils with handle 7. -/
def outcomeOk : Nat → Except JsError Nat := fun _ => .ok 7

/-- Claim C6 witness: a concrete interleaving of two callers — first caller
starts and awaits the attempt, the attempt fulfils, second caller then reads
the cached handle — ends with one attempt started and both callers holding
handle 7. -/
theorem connect_memoizes_single_attempt_witness :
    (⟨⟨some 7, some 0, 1⟩, [.done (.ok 7), .done (.ok 7)]⟩ : ConnConfig).cache.attempts ≤ 1 ∧
    ∀ pc ∈ (⟨⟨some 7, some 0, 1⟩, [.done (.ok 7), .done (.ok 7)]⟩ : ConnConfig).procs,
      ∀ r, pc = .done r → r = .ok 7 := by
  have hr : ConnReachable true outcomeOk 2
      ⟨⟨some 7, some 0, 1⟩, [.done (.ok 7), .done (.ok 7)]⟩ :=
    .step (.step (.step .init (.prologue ⟨none, none, 0⟩ [] [.start]))
        (.resume ⟨none, some 0, 1⟩ 0 [] [.start]))
      (.prologue ⟨some 7, some 0, 1⟩ [.done (.ok 7)] [])
  exact connect_memoizes_single_attempt outcomeOk 2 _ 7 hr rfl

/-- Claim C9: if the first (and only) connect attempt rejects with error e,
the rejected promise stays memoized for the life of the process: in every
reachable configuration conn is still null, no further mongoose.connect
attempt has been started (still at most one), and every caller that finished
failed with that same error e — the failure is never retried. -/
theorem connect_failure_never_retried (outcome : Nat → Except JsError Nat) (n : Nat)
    (cfg : ConnConfig) (e : JsError) (hr : ConnReachable true outcome n cfg)
    (herr : outcome 0 = .error e) :
    cfg.cache.attempts ≤ 1 ∧ cfg.cache.conn = none ∧
    ∀ pc ∈ cfg.procs, ∀ r, pc = .done r → r = .error e := by
  obtain ⟨h1, h2, h3, h4⟩ := connInv_reachable outcome n cfg hr
  refine ⟨?_, ?_, ?_⟩
  · rcases hp : cfg.cache.promise with _ | a
    · have := h1 hp
      omega
    · have := (h2 a hp).2
      omega
  · rcases hc : cfg.cache.conn with _ | h
    · rfl
    · have := (h3 h hc).2
      rw [herr] at this
      exact Except.noConfusion this
  · intro pc hpc r hr2
    rw [(h4 pc hpc).2 r hr2, herr]

/-- The settle function of the C9 witness: the attempt rejects. -/
def outcomeErr : Nat → Except JsError Nat := fun _ => .error .connectFailed

/-- Claim C9 witness: a concrete interleaving in which the attempt rejects,
the first caller rethrows the error, and a second caller still finds the
rejected promise memoized, awaits it, and fails with the same error — no
second attempt is started. -/
theorem connect_failure_never_retried_witness :
    (⟨⟨none, some 0, 1⟩,
        [.done (.error .connectFailed), .done (.error .connectFailed)]⟩ :
      ConnConfig).cache.attempts ≤ 1 ∧
    (⟨⟨none, some 0, 1⟩,
        [.done (.error .connectFailed), .done (.error .connectFailed)]⟩ :
      ConnConfig).cache.conn = none ∧
    ∀ pc ∈ (⟨⟨none, some 0, 1⟩,
        [.done (.error .connectFailed), .done (.error .connectFailed)]⟩ :
      ConnConfig).procs,
      ∀ r, pc = .done r → r = .error (.connectFailed) := by
  have hr : ConnReachable true outcomeErr 2
      ⟨⟨none, some 0, 1⟩, [.done (.error .connectFailed), .done (.error .connectFailed)]⟩ :=
    .step (.step (.step (.step .init (.prologue ⟨none, none, 0⟩ [] [.start]))
          (.resume ⟨none, some 0, 1⟩ 0 [] [.start]))
        (.prologue ⟨none, some 0, 1⟩ [.done (.error .connectFailed)] []))
      (.resume ⟨none, some 0, 1⟩ 0 [.done (.error .connectFailed)] [])
  exact connect_failure_never_retried outcomeErr 2 _ .connectFailed hr rfl

